import Mathlib

/-
Verification of the `req` HTTP wrapper package (sspencer/goal).

The Go source is shallowly embedded: pure functions become Lean functions,
the stateful request pipeline becomes explicit state passing (the transport
is a parameter describing how it consumes the body and how the exchange
completes), machine integers become Int/Nat, fallible operations return
Option/Except.  External library behaviour that the package calls into
(net/url form encoding, encoding/json indentation and scanning) is embedded
from the documented algorithms of those libraries, since the package's
observable behaviour depends on them.
-/

namespace Req

/-- `JSONContentType` from the source: the http content type for json. -/
def JSONContentType : String := "application/json"

/-- `URLEncodededContentType` from the source: content type for form data. -/
def URLEncodededContentType : String := "application/x-www-form-urlencoded"

/-- The `Request` configuration struct: two trace flags, a timeout
(`time.Duration`, i.e. an int64 count of nanoseconds) and the
redirect-skipping flag. -/
structure Request where
  curl : Bool
  curlHeader : Bool
  timeout : Int
  skipRedirects : Bool
  deriving DecidableEq

/-- One nanosecond count for `time.Second`. -/
def second : Int := 1000000000

/-- `New` builds a `Request` from defaults and applies each option in order. -/
def New (options : List (Request → Request)) : Request :=
  options.foldl (fun r opt => opt r) ⟨false, false, 30 * second, false⟩

/-- Option `Curl`: enables or disables curl logging. -/
def Curl (b : Bool) : Request → Request := fun r => { r with curl := b }

/-- Option `CurlHeader`: curl logging with extra header printout. -/
def CurlHeader (b : Bool) : Request → Request := fun r => { r with curlHeader := b }

/-- Option `Timeout`: changes the default request timeout. -/
def Timeout (d : Int) : Request → Request := fun r => { r with timeout := d }

/-- Option `SkipRedirects`: enables or disables the skip-redirects directive. -/
def SkipRedirects (b : Bool) : Request → Request := fun r => { r with skipRedirects := b }

/-- `IsSuccess` from the source: true iff the status code is between
`http.StatusOK` (200) and `http.StatusIMUsed` (226), inclusive. -/
def IsSuccess (statusCode : Int) : Bool :=
  200 ≤ statusCode && statusCode ≤ 226

/- ===== net/url form encoding (called by Post/Put via values.Encode()) ===== -/

/-- UTF-8 encoding of one character, as byte values. -/
def utf8Enc (c : Char) : List Nat :=
  let n := c.toNat
  if n < 0x80 then [n]
  else if n < 0x800 then [0xC0 + n / 0x40, 0x80 + n % 0x40]
  else if n < 0x10000 then
    [0xE0 + n / 0x1000, 0x80 + (n / 0x40) % 0x40, 0x80 + n % 0x40]
  else
    [0xF0 + n / 0x40000, 0x80 + (n / 0x1000) % 0x40,
     0x80 + (n / 0x40) % 0x40, 0x80 + n % 0x40]

/-- Upper-case hex digit for a value below 16. -/
def hexUpper (n : Nat) : Char :=
  if n < 10 then Char.ofNat (48 + n) else Char.ofNat (55 + n)

/-- Bytes that `url.QueryEscape` leaves unescaped: ASCII alphanumerics
and `-`, `_`, `.`, `~`. -/
def isUnreservedByte (b : Nat) : Bool :=
  (65 ≤ b && b ≤ 90) || (97 ≤ b && b ≤ 122) || (48 ≤ b && b ≤ 57) ||
  b = 45 || b = 95 || b = 46 || b = 126

/-- `url.QueryEscape` on one byte: unreserved bytes pass through, a space
becomes `+`, everything else becomes a percent escape in upper hex. -/
def escByte (b : Nat) : List Char :=
  if isUnreservedByte b then [Char.ofNat b]
  else if b = 32 then ['+']
  else ['%', hexUpper (b / 16), hexUpper (b % 16)]

/-- `url.QueryEscape`: escape every UTF-8 byte of the string. -/
def queryEscape (s : String) : String :=
  String.mk ((s.toList.flatMap utf8Enc).flatMap escByte)

/-- Go's `<=` on strings: byte-wise lexicographic order, which on UTF-8
text coincides with code-point lexicographic order. -/
def lexLe : List Char → List Char → Bool
  | [], _ => true
  | _ :: _, [] => false
  | a :: as, b :: bs =>
    if a.toNat < b.toNat then true
    else if b.toNat < a.toNat then false
    else lexLe as bs

/-- Insert one entry into a key-sorted association list. -/
def insertByKey (k : String × List String) :
    List (String × List String) → List (String × List String)
  | [] => [k]
  | x :: xs =>
    if lexLe k.1.toList x.1.toList then k :: x :: xs else x :: insertByKey k xs

/-- `sort.Strings` over the map keys: sort the association list by key. -/
def sortByKey : List (String × List String) → List (String × List String)
  | [] => []
  | x :: xs => insertByKey x (sortByKey xs)

/-- `url.Values.Encode`: sort the keys, then emit `k=v` pairs (key escaped
once, each value escaped) joined by `&`.  `url.Values` is a map from keys
to lists of values; it is embedded as an association list with distinct
keys. -/
def urlValuesEncode (vs : List (String × List String)) : String :=
  let pairs := (sortByKey vs).flatMap
    (fun kv => kv.2.map (fun v => queryEscape kv.1 ++ "=" ++ queryEscape v))
  String.intercalate "&" pairs

/- ===== io.TeeReader and the transport boundary ===== -/

/-- State of the tee wrapped around the outgoing body: the unread part of
the source and the capture buffer (`bytes.Buffer`) written so far. -/
structure TeeState where
  remaining : List Char
  buffer : List Char
  deriving DecidableEq

/-- One `Read` through `io.TeeReader`: up to `n` bytes are taken from the
source, delivered to the caller, and the same bytes are appended to the
capture buffer. -/
def teeRead (st : TeeState) (n : Nat) : List Char × TeeState :=
  (st.remaining.take n, ⟨st.remaining.drop n, st.buffer ++ st.remaining.take n⟩)

/-- A sequence of transport reads through the tee; returns all delivered
bytes and the final tee state. -/
def teeRun : List Nat → TeeState → List Char × TeeState
  | [], st => ([], st)
  | n :: ns, st =>
    let (chunk, st1) := teeRead st n
    let (rest, st2) := teeRun ns st1
    (chunk ++ rest, st2)

/-- The header and body blocks of `httputil.DumpResponse` output after the
split at the first CRLFCRLF boundary (present only when the split yields
two parts). -/
structure DumpParts where
  header : String
  body : String
  deriving DecidableEq

/-- What the transport reports when `client.Do` returns a response: the
status code, status line pieces, the response dump for tracing, and the
result of draining `resp.Body` (used on the failure path). -/
structure Completion where
  statusCode : Int
  proto : String
  status : String
  dump : Option DumpParts
  bodyRead : Except String String

/-- The transport boundary for one exchange: the read pattern with which it
consumes the outgoing body, and the outcome of `client.Do` (a transport
error or a completion). -/
structure Transport where
  reads : List Nat
  doResult : Except String Completion

/-- The request descriptor handed to the transport: method, URL, headers
explicitly set, and the body source. -/
structure SentRequest where
  method : String
  url : String
  headers : List (String × String)
  body : Option (List Char)
  deriving DecidableEq

/- ===== encoding/json: scanner and Indent (called by indentJSON) ===== -/

/-- A JSON syntax tree that keeps scalar tokens (numbers, strings, literals)
and object keys as their raw source text, as `json.Indent` does: indentation
reformats whitespace between tokens but never rewrites token text. -/
inductive JTok where
  | scalar (s : String)
  | arr (xs : List JTok)
  | obj (fields : List (String × JTok))

/-- JSON insignificant whitespace (space, tab, newline, carriage return). -/
def isWS (c : Char) : Bool :=
  c = ' ' || c = '\t' || c = '\n' || c = '\r'

/-- Drop leading JSON whitespace. -/
def skipWS : List Char → List Char
  | [] => []
  | c :: cs => if isWS c then skipWS cs else c :: cs

/-- Hex digit test for `\u` escapes. -/
def isHexDigit (c : Char) : Bool :=
  c.isDigit || ('a' ≤ c && c ≤ 'f') || ('A' ≤ c && c ≤ 'F')

/-- Scan the remainder of a JSON string literal after the opening quote;
returns its raw content characters (escapes kept verbatim) and the rest of
the input, or `none` on malformed input. -/
def scanStrBody : Nat → List Char → Option (List Char × List Char)
  | 0, _ => none
  | _, [] => none
  | fuel + 1, c :: cs =>
    if c = '"' then some ([], cs)
    else if c = '\\' then
      match cs with
      | [] => none
      | e :: cs1 =>
        if e = '"' || e = '\\' || e = '/' || e = 'b' || e = 'f' ||
           e = 'n' || e = 'r' || e = 't' then
          (scanStrBody fuel cs1).map (fun p => (c :: e :: p.1, p.2))
        else if e = 'u' then
          match cs1 with
          | h1 :: h2 :: h3 :: h4 :: cs2 =>
            if isHexDigit h1 && isHexDigit h2 && isHexDigit h3 && isHexDigit h4 then
              (scanStrBody fuel cs2).map
                (fun p => (c :: e :: h1 :: h2 :: h3 :: h4 :: p.1, p.2))
            else none
          | _ => none
        else none
    else if c.toNat < 0x20 then none
    else (scanStrBody fuel cs).map (fun p => (c :: p.1, p.2))

/-- Split off the leading run of decimal digits. -/
def takeDigits : List Char → List Char × List Char
  | [] => ([], [])
  | c :: cs =>
    if c.isDigit then
      let (d, r) := takeDigits cs
      (c :: d, r)
    else ([], c :: cs)

/-- Integer part of a JSON number after the optional sign: `0` or a nonzero
digit followed by digits. -/
def scanIntPart : List Char → Option (List Char × List Char)
  | [] => none
  | c :: cs =>
    if c = '0' then some ([c], cs)
    else if c.isDigit then
      let (d, r) := takeDigits cs
      some (c :: d, r)
    else none

/-- Optional fraction part `.digits`. -/
def scanFrac : List Char → Option (List Char × List Char)
  | '.' :: cs =>
    let (d, r) := takeDigits cs
    if d.isEmpty then none else some ('.' :: d, r)
  | cs => some ([], cs)

/-- Optional exponent part `[eE][+-]?digits`. -/
def scanExp : List Char → Option (List Char × List Char)
  | [] => some ([], [])
  | c :: cs =>
    if c = 'e' || c = 'E' then
      match cs with
      | [] => none
      | s :: cs1 =>
        if s = '+' || s = '-' then
          let (d, r) := takeDigits cs1
          if d.isEmpty then none else some (c :: s :: d, r)
        else
          let (d, r) := takeDigits cs
          if d.isEmpty then none else some (c :: d, r)
    else some ([], c :: cs)

/-- Scan a JSON number token, returning its raw text and the rest. -/
def scanNumber (cs : List Char) : Option (List Char × List Char) :=
  let (sign, cs1) :=
    match cs with
    | '-' :: rest => ([('-' : Char)], rest)
    | _ => (([] : List Char), cs)
  match scanIntPart cs1 with
  | none => none
  | some (ip, cs2) =>
    match scanFrac cs2 with
    | none => none
    | some (fp, cs3) =>
      match scanExp cs3 with
      | none => none
      | some (ep, cs4) => some (sign ++ ip ++ fp ++ ep, cs4)

/-- Match a literal tail (e.g. `rue` after `t`). -/
def matchLit : List Char → List Char → Option (List Char)
  | [], cs => some cs
  | _ :: _, [] => none
  | p :: ps, c :: cs => if c = p then matchLit ps cs else none

mutual

/-- Scan one JSON value (fueled recursion; callers supply ample fuel). -/
def parseVal : Nat → List Char → Option (JTok × List Char)
  | 0, _ => none
  | fuel + 1, cs =>
    match skipWS cs with
    | [] => none
    | '{' :: rest =>
      match skipWS rest with
      | '}' :: rest1 => some (.obj [], rest1)
      | rest1 => (parseMembers fuel rest1).map (fun p => (.obj p.1, p.2))
    | '[' :: rest =>
      match skipWS rest with
      | ']' :: rest1 => some (.arr [], rest1)
      | rest1 => (parseItems fuel rest1).map (fun p => (.arr p.1, p.2))
    | '"' :: rest =>
      (scanStrBody (rest.length + 1) rest).map
        (fun p => (.scalar ("\"" ++ String.mk p.1 ++ "\""), p.2))
    | 't' :: rest => (matchLit ['r', 'u', 'e'] rest).map (fun r => (.scalar "true", r))
    | 'f' :: rest => (matchLit ['a', 'l', 's', 'e'] rest).map (fun r => (.scalar "false", r))
    | 'n' :: rest => (matchLit ['u', 'l', 'l'] rest).map (fun r => (.scalar "null", r))
    | cs1 => (scanNumber cs1).map (fun p => (.scalar (String.mk p.1), p.2))

/-- Scan the elements of a non-empty JSON array up to `]`. -/
def parseItems : Nat → List Char → Option (List JTok × List Char)
  | 0, _ => none
  | fuel + 1, cs =>
    match parseVal fuel cs with
    | none => none
    | some (x, rest) =>
      match skipWS rest with
      | ',' :: rest1 => (parseItems fuel rest1).map (fun p => (x :: p.1, p.2))
      | ']' :: rest1 => some ([x], rest1)
      | _ => none

/-- Scan the members of a non-empty JSON object up to the closing brace. -/
def parseMembers : Nat → List Char → Option (List (String × JTok) × List Char)
  | 0, _ => none
  | fuel + 1, cs =>
    match skipWS cs with
    | '"' :: rest =>
      match scanStrBody (rest.length + 1) rest with
      | none => none
      | some (key, rest1) =>
        match skipWS rest1 with
        | ':' :: rest2 =>
          match parseVal fuel rest2 with
          | none => none
          | some (v, rest3) =>
            match skipWS rest3 with
            | ',' :: rest4 =>
              (parseMembers fuel rest4).map
                (fun p => (("\"" ++ String.mk key ++ "\"", v) :: p.1, p.2))
            | '}' :: rest4 => some ([("\"" ++ String.mk key ++ "\"", v)], rest4)
            | _ => none
        | _ => none
    | _ => none

end

/-- `checkValid` over a whole buffer: one top-level value, then only
trailing whitespace.  Returns the scanned tree, or `none` exactly when
`json.Indent` reports an error. -/
def fullParse (s : String) : Option JTok :=
  match parseVal (2 * s.length + 4) s.toList with
  | none => none
  | some (t, rest) => if skipWS rest = [] then some t else none

/-- Indentation for `json.Indent` with empty prefix and three-space unit. -/
def jindent : Nat → String
  | 0 => ""
  | n + 1 => jindent n ++ "   "

mutual

/-- `json.Indent` output for one value at a nesting depth: scalars keep
their token text, empty composites stay compact, and each element of a
non-empty composite starts on a new line indented one level deeper. -/
def printTok : JTok → Nat → String
  | .scalar s, _ => s
  | .arr [], _ => "[]"
  | .arr (x :: xs), d =>
    "[\n" ++ printItems (x :: xs) (d + 1) ++ "\n" ++ jindent d ++ "]"
  | .obj [], _ => "\x7b\x7d"
  | .obj (f :: fs), d =>
    "\x7b\n" ++ printFields (f :: fs) (d + 1) ++ "\n" ++ jindent d ++ "\x7d"

/-- Array elements, comma-and-newline separated, each indented. -/
def printItems : List JTok → Nat → String
  | [], _ => ""
  | [x], d => jindent d ++ printTok x d
  | x :: y :: xs, d =>
    jindent d ++ printTok x d ++ ",\n" ++ printItems (y :: xs) d

/-- Object members, comma-and-newline separated, `key: value` style. -/
def printFields : List (String × JTok) → Nat → String
  | [], _ => ""
  | [f], d => jindent d ++ f.1 ++ ": " ++ printTok f.2 d
  | f :: g :: fs, d =>
    jindent d ++ f.1 ++ ": " ++ printTok f.2 d ++ ",\n" ++ printFields (g :: fs) d

end

/-- `indentJSON` from the source: `json.Indent(&out, b, "", "   ")`;
`none` is the error case (the input is not valid JSON). -/
def indentJSON (b : String) : Option String :=
  (fullParse b).map (fun t => printTok t 0)

/- ===== the Trace Formatter (`logger`) ===== -/

/-- `strings.TrimSpace`: drop leading and trailing whitespace. -/
def trimSpace (s : String) : String :=
  String.mk (((s.toList.dropWhile Char.isWhitespace).reverse.dropWhile
    Char.isWhitespace).reverse)

/-- The four-space indent `strings.Repeat(" ", 4)` used by `logger`. -/
def indent4 : String := "    "

/-- One `-H` header-injection clause: name and first value of a header. -/
def headerClause (h : String × String) : String :=
  indent4 ++ "-H\x27" ++ h.1 ++ ": " ++ h.2 ++ "\x27 \\\n"

/-- All header clauses in order. -/
def headerLines (hs : List (String × String)) : String :=
  String.join (hs.map headerClause)

/-- The `-d` data clause: emitted only when the capture buffer is
non-empty, with the captured body whitespace-trimmed. -/
def dataClause (teeData : String) : String :=
  if teeData = "" then ""
  else indent4 ++ "-d\x27" ++ trimSpace teeData ++ "\x27 \\\n"

/-- The response body as the trace renders it: pretty-printed JSON when
`indentJSON` succeeds, the raw block otherwise. -/
def bodyRender (body : String) : String :=
  match indentJSON body with
  | none => body
  | some j => j

/-- The response part of the trace: nothing when the dump failed or had no
body part; otherwise a blank-line separator, then either the full header
block (header tracing) or just the protocol and status line, then the
rendered body. -/
def respTrace (c : Request) (proto status : String) (parts : Option DumpParts) : String :=
  match parts with
  | none => ""
  | some p =>
    "\n\n" ++
    (if c.curlHeader then p.header ++ "\n\n" else proto ++ " " ++ status ++ "\n") ++
    bodyRender p.body ++ "\n"

/-- `logger` from the source: `none` when neither trace flag is set (the
early return, nothing logged); otherwise the single text block handed to
the logging sink.  Note the source writes the ` -L` follow-redirects flag
exactly when `skipRedirects` is set. -/
def logger (c : Request) (method urlStr : String) (headers : List (String × String))
    (teeData : String) (proto status : String) (parts : Option DumpParts) :
    Option String :=
  if !c.curl && !c.curlHeader then none
  else some (
    "\ncurl -sS" ++
    (if c.skipRedirects then " -L" else "") ++
    " -X" ++ method ++ " \\\n" ++
    headerLines headers ++
    dataClause teeData ++
    indent4 ++ "\"" ++ urlStr ++ "\"" ++
    respTrace c proto status parts)

/- ===== the Request Executor (`request` and the method helpers) ===== -/

/-- The failure-path error text:
`fmt.Errorf("Error making HTTP request.  HTTP Status %d: %v", code, body)`. -/
def httpErrMsg (statusCode : Int) (body : String) : String :=
  "Error making HTTP request.  HTTP Status " ++ toString statusCode ++ ": " ++ body

/-- Everything one call of `request` produces: the descriptor handed to the
transport, the tee observables (bytes delivered, capture buffer, unread
rest), the trace record if any, and the `(response, error)` pair. -/
structure Outcome where
  sent : SentRequest
  teeDelivered : List Char
  teeBuffer : List Char
  teeLeft : List Char
  trace : Option String
  resp : Option Completion
  err : Option String

/-- `request` from the source.  The outgoing body (when present) is read by
the transport through an `io.TeeReader` into the capture buffer; the
content-type header is set only when non-empty; a transport error from
`client.Do` propagates as-is; otherwise tracing fires when either flag is
set, the completion is classified with the 200..226 band, a success returns
the response unmodified, and a failure drains the body into an error
embedding the status code (or propagates the drain error). -/
def Request.request (c : Request) (method urlStr contentType : String)
    (data : Option String) (tr : Transport) : Outcome :=
  let hdrs := if contentType = "" then [] else [("Content-Type", contentType)]
  let sent : SentRequest := ⟨method, urlStr, hdrs, data.map String.toList⟩
  let tee : List Char × TeeState :=
    match data with
    | none => ([], ⟨[], []⟩)
    | some d => teeRun tr.reads ⟨d.toList, []⟩
  let fin : Option String × Option Completion × Option String :=
    match tr.doResult with
    | .error e => (none, none, some e)
    | .ok comp =>
      let tr0 :=
        if c.curl || c.curlHeader then
          logger c method urlStr hdrs (String.mk tee.2.buffer)
            comp.proto comp.status comp.dump
        else none
      if IsSuccess comp.statusCode then (tr0, some comp, none)
      else
        match comp.bodyRead with
        | .error e => (tr0, none, some e)
        | .ok body => (tr0, none, some (httpErrMsg comp.statusCode body))
  ⟨sent, tee.1, tee.2.buffer, tee.2.remaining, fin.1, fin.2.1, fin.2.2⟩

/-- `Get`: method GET, empty content type, no body. -/
def Request.Get (c : Request) (url : String) (tr : Transport) : Outcome :=
  c.request "GET" url "" none tr

/-- `Head`: method HEAD, empty content type, no body. -/
def Request.Head (c : Request) (url : String) (tr : Transport) : Outcome :=
  c.request "HEAD" url "" none tr

/-- `Delete`: method DELETE, empty content type, no body. -/
def Request.Delete (c : Request) (url : String) (tr : Transport) : Outcome :=
  c.request "DELETE" url "" none tr

/-- `Post`: method POST, url-encoded form content type, encoded values. -/
def Request.Post (c : Request) (url : String) (values : List (String × List String))
    (tr : Transport) : Outcome :=
  c.request "POST" url URLEncodededContentType (some (urlValuesEncode values)) tr

/-- `Put` as the source writes it: it also passes `http.MethodPost`. -/
def Request.Put (c : Request) (url : String) (values : List (String × List String))
    (tr : Transport) : Outcome :=
  c.request "POST" url URLEncodededContentType (some (urlValuesEncode values)) tr

/- ===== the JSON decode adapter (`Unmarshal` and `SyntaxError`) ===== -/

/-- Go error values that flow through `Unmarshal`: a stream read failure,
the decoder's `*json.SyntaxError` (offset plus message), the package's own
`SyntaxError` wrapper that adds the full input, and any other decode
error. -/
inductive GoError where
  | readFail (msg : String)
  | jsonSyntax (off : Nat) (msg : String)
  | reqSyntax (off : Nat) (msg : String) (input : String)
  | jsonOther (msg : String)
  deriving DecidableEq

/-- What `json.Unmarshal` does with one buffer: its error (if any) and its
effect on the decode target. -/
structure DecodeOut (τ : Type) where
  err : Option GoError
  target : Option τ

/-- `Unmarshal` from the source, with the decoder as a parameter: a read
failure is returned as-is with the target untouched; a decoder error that
is a `*json.SyntaxError` is wrapped into the package `SyntaxError` carrying
the offset and the full raw input; every other decoder outcome passes
through unchanged. -/
def Unmarshal {τ : Type} (bodyRead : Except GoError String)
    (dec : String → DecodeOut τ) (target : Option τ) :
    Option GoError × Option τ :=
  match bodyRead with
  | .error e => (some e, target)
  | .ok data =>
    let out := dec data
    match out.err with
    | some (.jsonSyntax off msg) => (some (.reqSyntax off msg data), out.target)
    | e => (e, out.target)

/-- `SyntaxError.Error` from the source:
`fmt.Sprintf("syntax error near: %s", e.input[e.Offset-1:])` with the slice
quoted in backticks — the message text around the suffix of the input that
starts at the byte before the reported offset. -/
def syntaxErrorMessage (input : List Char) (offset : Nat) : List Char :=
  "syntax error near: `".toList ++ input.drop (offset - 1) ++ "`".toList

/- ===== substring occurrence infrastructure ===== -/

/-- `p` occurs contiguously inside `s`. -/
def strInfix (p s : String) : Prop := p.toList <:+: s.toList

instance (p s : String) : Decidable (strInfix p s) :=
  inferInstanceAs (Decidable (p.toList <:+: s.toList))

theorem listInfix_appL {α : Type} (x : List α) {p s : List α} (h : p <:+: s) :
    p <:+: x ++ s := by
  obtain ⟨a, b, rfl⟩ := h
  exact ⟨x ++ a, b, by simp⟩

theorem listInfix_appR {α : Type} (x : List α) {p s : List α} (h : p <:+: s) :
    p <:+: s ++ x := by
  obtain ⟨a, b, rfl⟩ := h
  exact ⟨a, b ++ x, by simp⟩

theorem strInfix_refl (p : String) : strInfix p p :=
  ⟨[], [], by simp⟩

theorem strInfix_appL (x : String) {p s : String} (h : strInfix p s) :
    strInfix p (x ++ s) := by
  simpa [strInfix, String.toList] using listInfix_appL x.toList h

theorem strInfix_appR (x : String) {p s : String} (h : strInfix p s) :
    strInfix p (s ++ x) := by
  simpa [strInfix, String.toList] using listInfix_appR x.toList h

/- ===== claim theorems ===== -/

/-- C3: `IsSuccess statusCode` is true exactly when the status code lies in
the inclusive band 200..226, with the boundary values 199, 200, 226 and 227
behaving as stated. -/
theorem isSuccess_band :
    (∀ s : Int, IsSuccess s = true ↔ (200 ≤ s ∧ s ≤ 226)) ∧
    IsSuccess 199 = false ∧ IsSuccess 200 = true ∧
    IsSuccess 226 = true ∧ IsSuccess 227 = false := by
  refine ⟨fun s => ?_, by decide, by decide, by decide, by decide⟩
  simp [IsSuccess]

/-- C2: `Put` is extensionally equal to `Post`: for every configuration,
url, form values and transport it produces the identical outcome, and both
send method POST, the url-encoded form content type, and the encoded form
values as the body. -/
theorem put_eq_post (c : Request) (u : String) (values : List (String × List String))
    (tr : Transport) :
    c.Put u values tr = c.Post u values tr ∧
    (c.Put u values tr).sent.method = "POST" ∧
    (c.Post u values tr).sent.method = "POST" ∧
    (c.Put u values tr).sent.body = some (urlValuesEncode values).toList ∧
    (c.Put u values tr).sent.headers = [("Content-Type", URLEncodededContentType)] :=
  ⟨rfl, rfl, rfl, rfl, rfl⟩

/-- C6: `Post` sends the url-encoded form of exactly the given pairs as the
body with the form content type; the content-type header is set only for a
non-empty content type, so `Get`/`Head`/`Delete` send no content-type
header and no body.  The concrete pairs a=1, b=2 encode to `a=1&b=2`. -/
theorem post_sends_encoded_form (c : Request) (u : String)
    (values : List (String × List String)) (tr : Transport) :
    (c.Post u values tr).sent.body = some (urlValuesEncode values).toList ∧
    (c.Post u values tr).sent.headers = [("Content-Type", URLEncodededContentType)] ∧
    (∀ m u2 ct d tr2, (Request.request c m u2 ct d tr2).sent.headers =
      if ct = "" then [] else [("Content-Type", ct)]) ∧
    (c.Get u tr).sent.headers = [] ∧ (c.Get u tr).sent.body = none ∧
    (c.Head u tr).sent.headers = [] ∧ (c.Head u tr).sent.body = none ∧
    (c.Delete u tr).sent.headers = [] ∧ (c.Delete u tr).sent.body = none ∧
    urlValuesEncode [("a", ["1"]), ("b", ["2"])] = "a=1&b=2" := by
  refine ⟨rfl, rfl, fun m u2 ct d tr2 => rfl, rfl, rfl, rfl, rfl, rfl, rfl, by decide⟩

/-- Whatever the read pattern, the tee's capture buffer grows by exactly
the bytes it delivered. -/
theorem teeRun_buffer (ns : List Nat) (st : TeeState) :
    (teeRun ns st).2.buffer = st.buffer ++ (teeRun ns st).1 := by
  induction ns generalizing st with
  | nil => simp [teeRun]
  | cons n ns ih => simp [teeRun, teeRead, ih]

/-- The delivered bytes followed by the unread rest reconstitute the
original source: the tee never alters the delivered stream. -/
theorem teeRun_total (ns : List Nat) (st : TeeState) :
    (teeRun ns st).1 ++ (teeRun ns st).2.remaining = st.remaining := by
  induction ns generalizing st with
  | nil => simp [teeRun]
  | cons n ns ih => simp [teeRun, teeRead, ih]

/-- C5: when the transport drains the outgoing body, the bytes delivered to
it are exactly the original body bytes, and the capture buffer holds
exactly the delivered bytes; with no body the capture buffer stays
empty. -/
theorem request_tee_captures (c : Request) (m u ct body : String) (tr : Transport)
    (hdrain : (c.request m u ct (some body) tr).teeLeft = []) :
    (c.request m u ct (some body) tr).teeDelivered = body.toList ∧
    (c.request m u ct (some body) tr).teeBuffer =
      (c.request m u ct (some body) tr).teeDelivered ∧
    (c.request m u ct none tr).teeBuffer = [] := by
  have hd : (teeRun tr.reads ⟨body.toList, []⟩).2.remaining = [] := hdrain
  have h1 := teeRun_total tr.reads ⟨body.toList, []⟩
  have h2 := teeRun_buffer tr.reads ⟨body.toList, []⟩
  rw [hd, List.append_nil] at h1
  refine ⟨h1, ?_, rfl⟩
  show (teeRun tr.reads ⟨body.toList, []⟩).2.buffer = (teeRun tr.reads ⟨body.toList, []⟩).1
  simpa using h2

/-- Witness for C5 at a concrete drained body. -/
theorem request_tee_captures_witness :
    ((New []).request "POST" "http://e.com" URLEncodededContentType (some "hello")
      ⟨[2, 9], .error "boom"⟩).teeLeft = [] ∧
    ((New []).request "POST" "http://e.com" URLEncodededContentType (some "hello")
      ⟨[2, 9], .error "boom"⟩).teeDelivered = "hello".toList ∧
    ((New []).request "POST" "http://e.com" URLEncodededContentType (some "hello")
      ⟨[2, 9], .error "boom"⟩).teeBuffer =
      ((New []).request "POST" "http://e.com" URLEncodededContentType (some "hello")
        ⟨[2, 9], .error "boom"⟩).teeDelivered ∧
    ((New []).request "POST" "http://e.com" URLEncodededContentType none
      ⟨[2, 9], .error "boom"⟩).teeBuffer = [] := by
  have h : ((New []).request "POST" "http://e.com" URLEncodededContentType (some "hello")
      ⟨[2, 9], .error "boom"⟩).teeLeft = [] := by decide
  have hc := request_tee_captures (New []) "POST" "http://e.com" URLEncodededContentType
    "hello" ⟨[2, 9], .error "boom"⟩ h
  exact ⟨h, hc.1, hc.2.1, hc.2.2⟩

/-- C4: when the transport completes with a non-success status and the
response body drains without error, `request` returns no response and an
error message that embeds both the numeric status code and the full drained
body text. -/
theorem request_failure_embeds_status (c : Request) (m u ct : String)
    (data : Option String) (tr : Transport) (comp : Completion) (body : String)
    (hdo : tr.doResult = .ok comp)
    (hfail : IsSuccess comp.statusCode = false)
    (hread : comp.bodyRead = .ok body) :
    (c.request m u ct data tr).resp = none ∧
    (c.request m u ct data tr).err = some (httpErrMsg comp.statusCode body) ∧
    strInfix (toString comp.statusCode) (httpErrMsg comp.statusCode body) ∧
    strInfix body (httpErrMsg comp.statusCode body) := by
  refine ⟨?_, ?_, ?_, ?_⟩
  · simp [Request.request, hdo, hfail, hread]
  · simp [Request.request, hdo, hfail, hread]
  · exact strInfix_appR _ (strInfix_appR _ (strInfix_appL _ (strInfix_refl _)))
  · exact strInfix_appL _ (strInfix_refl _)

/-- Witness for C4: status 404 with body `not found`. -/
theorem request_failure_embeds_status_witness :
    ((New []).request "GET" "http://e.com" "" none
      ⟨[], .ok ⟨404, "HTTP/1.1", "404 Not Found", none, .ok "not found"⟩⟩).resp = none ∧
    ((New []).request "GET" "http://e.com" "" none
      ⟨[], .ok ⟨404, "HTTP/1.1", "404 Not Found", none, .ok "not found"⟩⟩).err =
      some (httpErrMsg 404 "not found") ∧
    strInfix (toString (404 : Int)) (httpErrMsg 404 "not found") ∧
    strInfix "not found" (httpErrMsg 404 "not found") :=
  request_failure_embeds_status (New []) "GET" "http://e.com" "" none
    ⟨[], .ok ⟨404, "HTTP/1.1", "404 Not Found", none, .ok "not found"⟩⟩
    ⟨404, "HTTP/1.1", "404 Not Found", none, .ok "not found"⟩ "not found"
    rfl (by decide) rfl

/-- C10: on the non-success path, a failure while draining the response
body makes `request` return no response and the raw read error itself — the
status-code error text is not produced. -/
theorem request_read_error_replaces_status (c : Request) (m u ct : String)
    (data : Option String) (tr : Transport) (comp : Completion) (e : String)
    (hdo : tr.doResult = .ok comp)
    (hfail : IsSuccess comp.statusCode = false)
    (hread : comp.bodyRead = .error e) :
    (c.request m u ct data tr).resp = none ∧
    (c.request m u ct data tr).err = some e := by
  constructor
  · simp [Request.request, hdo, hfail, hread]
  · simp [Request.request, hdo, hfail, hread]

/-- Witness for C10: status 500 whose body read fails. -/
theorem request_read_error_replaces_status_witness :
    ((New []).request "GET" "http://e.com" "" none
      ⟨[], .ok ⟨500, "HTTP/1.1", "500 Internal Server Error", none,
        .error "read failed"⟩⟩).resp = none ∧
    ((New []).request "GET" "http://e.com" "" none
      ⟨[], .ok ⟨500, "HTTP/1.1", "500 Internal Server Error", none,
        .error "read failed"⟩⟩).err = some "read failed" :=
  request_read_error_replaces_status (New []) "GET" "http://e.com" "" none
    ⟨[], .ok ⟨500, "HTTP/1.1", "500 Internal Server Error", none, .error "read failed"⟩⟩
    ⟨500, "HTTP/1.1", "500 Internal Server Error", none, .error "read failed"⟩
    "read failed" rfl (by decide) rfl

/-- C7: `Unmarshal` returns a stream read error unchanged with the target
untouched; wraps a decoder syntax error into the package `SyntaxError`
carrying the reported offset and the full raw input; and passes every other
decoder outcome through unchanged. -/
theorem unmarshal_error_paths {τ : Type} (e : GoError) (dec : String → DecodeOut τ)
    (target : Option τ) (data : String) :
    (Unmarshal (.error e) dec target = (some e, target)) ∧
    (∀ off msg, (dec data).err = some (.jsonSyntax off msg) →
      Unmarshal (.ok data) dec target = (some (.reqSyntax off msg data), (dec data).target)) ∧
    (∀ msg, (dec data).err = some (.jsonOther msg) →
      Unmarshal (.ok data) dec target = (some (.jsonOther msg), (dec data).target)) ∧
    ((dec data).err = none →
      Unmarshal (.ok data) dec target = (none, (dec data).target)) := by
  refine ⟨rfl, fun off msg h => ?_, fun msg h => ?_, fun h => ?_⟩ <;>
    simp [Unmarshal, h]

/-- Witness for C7 with a concrete decoder over `Nat` targets. -/
theorem unmarshal_error_paths_witness :
    (Unmarshal (τ := Nat) (.error (.readFail "io"))
      (fun _ => ⟨some (.jsonOther "t"), none⟩) (some 1) =
      (some (.readFail "io"), some 1)) ∧
    ((⟨some (.jsonSyntax 3 "m"), none⟩ : DecodeOut Nat).err = some (.jsonSyntax 3 "m")) ∧
    (Unmarshal (τ := Nat) (.ok "bad") (fun _ => ⟨some (.jsonSyntax 3 "m"), none⟩) none =
      (some (.reqSyntax 3 "m" "bad"), none)) ∧
    (Unmarshal (τ := Nat) (.ok "mis") (fun _ => ⟨some (.jsonOther "t"), none⟩) none =
      (some (.jsonOther "t"), none)) ∧
    (Unmarshal (τ := Nat) (.ok "good") (fun _ => ⟨none, some 7⟩) none =
      (none, some 7)) := by
  refine ⟨(unmarshal_error_paths (.readFail "io")
      (fun _ => ⟨some (.jsonOther "t"), none⟩) (some 1) "x").1, rfl, ?_, ?_, ?_⟩
  · exact (unmarshal_error_paths (.readFail "io")
      (fun _ => ⟨some (.jsonSyntax 3 "m"), none⟩) none "bad").2.1 3 "m" rfl
  · exact (unmarshal_error_paths (.readFail "io")
      (fun _ => ⟨some (.jsonOther "t"), none⟩) none "mis").2.2.1 "t" rfl
  · exact (unmarshal_error_paths (.readFail "io")
      (fun _ => ⟨none, some 7⟩) none "good").2.2.2 rfl

/-- C8: for a reported offset `k` with `1 ≤ k ≤ |input|`, the rendered
syntax-error message contains byte `k-1` of the original input (the byte
immediately preceding the offset heads the quoted suffix). -/
theorem syntax_message_contains_prev_byte (input : List Char) (k : Nat)
    (h1 : 1 ≤ k) (h2 : k ≤ input.length) :
    [input.getD (k - 1) ' '] <:+: syntaxErrorMessage input k := by
  have hlt : k - 1 < input.length := by omega
  have hdrop : input.drop (k - 1) = input.getD (k - 1) ' ' :: input.drop k := by
    rw [List.drop_eq_getElem_cons hlt, List.getD_eq_getElem input ' ' hlt]
    congr 2
    omega
  refine ⟨"syntax error near: `".toList, input.drop k ++ "`".toList, ?_⟩
  simp [syntaxErrorMessage, hdrop]

/-- Witness for C8: input `abc`, offset 2 — the message shows byte `b`. -/
theorem syntax_message_contains_prev_byte_witness :
    1 ≤ 2 ∧ 2 ≤ (['a', 'b', 'c'] : List Char).length ∧
    [(['a', 'b', 'c'] : List Char).getD 1 ' '] <:+: syntaxErrorMessage ['a', 'b', 'c'] 2 ∧
    syntaxErrorMessage ['a', 'b', 'c'] 2 = "syntax error near: `bc`".toList :=
  ⟨by decide, by decide,
    syntax_message_contains_prev_byte ['a', 'b', 'c'] 2 (by decide) (by decide),
    by decide⟩

/-- C9: whenever tracing is on and the response dump has a body block, the
trace contains that block pretty-printed with three-space indentation when
it is valid JSON, and contains the raw block unchanged otherwise. -/
theorem logger_renders_body (c : Request) (m u : String) (hs : List (String × String))
    (tee proto status hdr body : String)
    (htrace : c.curl = true ∨ c.curlHeader = true) :
    (∀ t, fullParse body = some t →
      strInfix (printTok t 0)
        ((logger c m u hs tee proto status (some ⟨hdr, body⟩)).getD "")) ∧
    (fullParse body = none →
      strInfix body ((logger c m u hs tee proto status (some ⟨hdr, body⟩)).getD "")) := by
  have hflag : (!c.curl && !c.curlHeader) = false := by
    rcases htrace with h | h <;> simp [h]
  have hlog : (logger c m u hs tee proto status (some ⟨hdr, body⟩)).getD "" =
      "\ncurl -sS" ++ (if c.skipRedirects then " -L" else "") ++ " -X" ++ m ++ " \\\n" ++
      headerLines hs ++ dataClause tee ++ indent4 ++ "\"" ++ u ++ "\"" ++
      respTrace c proto status (some ⟨hdr, body⟩) := by
    simp [logger, hflag]
  constructor
  · intro t ht
    have hb : bodyRender body = printTok t 0 := by simp [bodyRender, indentJSON, ht]
    rw [hlog]
    apply strInfix_appL
    show strInfix (printTok t 0)
      ("\n\n" ++ (if c.curlHeader then hdr ++ "\n\n" else proto ++ " " ++ status ++ "\n") ++
        bodyRender body ++ "\n")
    rw [hb]
    exact strInfix_appR _ (strInfix_appL _ (strInfix_refl _))
  · intro ht
    have hb : bodyRender body = body := by simp [bodyRender, indentJSON, ht]
    rw [hlog]
    apply strInfix_appL
    show strInfix body
      ("\n\n" ++ (if c.curlHeader then hdr ++ "\n\n" else proto ++ " " ++ status ++ "\n") ++
        bodyRender body ++ "\n")
    rw [hb]
    exact strInfix_appR _ (strInfix_appL _ (strInfix_refl _))

/-- Witness for C9: the JSON body `\x7b"x":1\x7d` appears in the trace as
the three-space-indented block, and a non-JSON body appears unchanged. -/
theorem logger_renders_body_witness :
    ((⟨true, false, 30 * second, false⟩ : Request).curl = true ∨
      (⟨true, false, 30 * second, false⟩ : Request).curlHeader = true) ∧
    fullParse "\x7b\"x\":1\x7d" = some (JTok.obj [("\"x\"", JTok.scalar "1")]) ∧
    printTok (JTok.obj [("\"x\"", JTok.scalar "1")]) 0 = "\x7b\n   \"x\": 1\n\x7d" ∧
    strInfix "\x7b\n   \"x\": 1\n\x7d"
      ((logger ⟨true, false, 30 * second, false⟩ "GET" "http://e.com" [] ""
        "HTTP/1.1" "200 OK" (some ⟨"H", "\x7b\"x\":1\x7d"⟩)).getD "") ∧
    fullParse "not json" = none ∧
    strInfix "not json"
      ((logger ⟨true, false, 30 * second, false⟩ "GET" "http://e.com" [] ""
        "HTTP/1.1" "200 OK" (some ⟨"H", "not json"⟩)).getD "") := by
  have hp : fullParse "\x7b\"x\":1\x7d" = some (JTok.obj [("\"x\"", JTok.scalar "1")]) := rfl
  have hn : fullParse "not json" = none := rfl
  have heq : printTok (JTok.obj [("\"x\"", JTok.scalar "1")]) 0 = "\x7b\n   \"x\": 1\n\x7d" := rfl
  refine ⟨Or.inl rfl, hp, heq, ?_, hn, ?_⟩
  · have h := (logger_renders_body ⟨true, false, 30 * second, false⟩ "GET" "http://e.com"
      [] "" "HTTP/1.1" "200 OK" "H" "\x7b\"x\":1\x7d" (Or.inl rfl)).1
      (JTok.obj [("\"x\"", JTok.scalar "1")]) hp
    rw [← heq]
    exact h
  · exact (logger_renders_body ⟨true, false, 30 * second, false⟩ "GET" "http://e.com"
      [] "" "HTTP/1.1" "200 OK" "H" "not json" (Or.inl rfl)).2 hn

/-- C1 evaluated on the code: the trace's shell-invocation header contains
the follow-redirects flag ` -L` exactly when `skipRedirects` is TRUE, the
inverse of the documented intent (the trace reflecting actual redirect
behavior). -/
theorem logger_L_flag_tracks_skipRedirects :
    ((logger ⟨true, false, 30 * second, true⟩ "GET" "http://example.com" [] ""
      "HTTP/1.1" "200 OK" none).isSome = true) ∧
    strInfix " -L" ((logger ⟨true, false, 30 * second, true⟩ "GET" "http://example.com"
      [] "" "HTTP/1.1" "200 OK" none).getD "") ∧
    ((logger ⟨true, false, 30 * second, false⟩ "GET" "http://example.com" [] ""
      "HTTP/1.1" "200 OK" none).isSome = true) ∧
    ¬ strInfix " -L" ((logger ⟨true, false, 30 * second, false⟩ "GET" "http://example.com"
      [] "" "HTTP/1.1" "200 OK" none).getD "") := by
  decide

end Req
